import Mathlib

/-!
Verification development for the wirnata15/BinanceFuturesSDK client library.

The repository is a JavaScript client for the Binance Futures REST API.  Each
endpoint module (Account, Trade, Market) is a mixin adding operation methods to
the client class; each operation validates its required parameters, uppercases
symbol-like fields, merges the caller's `options` object via `Object.assign`
(mutating it), and delegates to the dispatcher through either `signRequest` or
`publicRequest`.

This file shallowly embeds the parts of the source that the verified claims
are about: a model of JavaScript values and objects, the parameter validator,
the per-operation request builders (transcribed one-to-one from the source,
including the source's defects, e.g. methods that reference identifiers never
declared in their signature), a registry of every operation's dispatch path,
the `Futures` constructor, and the request signer's canonical serialization.
-/

/-- The subset of JavaScript values that flow through the SDK's parameter
bags: `undefined`, `null`, booleans, numbers (modelled as integers; only
integral timestamps/quantities occur in the claims), strings, arrays and
plain objects (insertion-ordered field lists, as in JS). -/
inductive JsVal where
  | undef
  | null
  | bool (b : Bool)
  | num (n : Int)
  | str (s : String)
  | arr (xs : List JsVal)
  | obj (fields : List (String × JsVal))

/-- A JavaScript object: an insertion-ordered association list of fields. -/
abbrev JsObj : Type := List (String × JsVal)

/-- The error taxonomy relevant to the claims: the validator's
`MissingParameterError` (carrying the names of all missing parameters), the
strict-mode `ReferenceError` raised by reading an identifier that has no
binding, and the `TypeError` raised by calling a method on a value that lacks
it (e.g. `toUpperCase` on a non-string). -/
inductive JsError where
  | missingParameterError (names : List String)
  | referenceError (ident : String)
  | typeError (msg : String)

/-- Modelled from the spec (the helper `src/helpers/validation.js` is not
under src/): a parameter value counts as missing when it is `undefined`,
`null`, or the empty string. -/
def isEmptyValue : JsVal → Bool
  | .undef => true
  | .null => true
  | .str s => s == ""
  | _ => false

/-- Names of the parameters in the given insertion-ordered parameter mapping
whose values are missing. -/
def missingNames (params : List (String × JsVal)) : List String :=
  (params.filter (fun p => isEmptyValue p.2)).map (fun p => p.1)

/-- Modelled from the spec (the helper `src/helpers/validation.js` is not
under src/): `validateRequiredParameters` fails with a
`MissingParameterError` naming every parameter whose value is undefined,
null, or empty-string, before any request is constructed. -/
def validateRequiredParameters (params : List (String × JsVal)) :
    Except JsError Unit :=
  match missingNames params with
  | [] => .ok ()
  | ns => .error (.missingParameterError ns)

/-- JavaScript truthiness for the modelled values (`undefined`, `null`,
`false`, `0` and `""` are falsy). -/
def jsTruthy : JsVal → Bool
  | .undef => false
  | .null => false
  | .bool b => b
  | .num n => n != 0
  | .str s => s != ""
  | .arr _ => true
  | .obj _ => true

/-- Property read `o[k]`: the first field named `k`, `undefined` if absent. -/
def getField : JsObj → String → JsVal
  | [], _ => .undef
  | p :: rest, k => if p.1 = k then p.2 else getField rest k

/-- `Object.prototype.hasOwnProperty.call (o, k)`. -/
def hasKey : JsObj → String → Bool
  | [], _ => false
  | p :: rest, k => if p.1 = k then true else hasKey rest k

/-- Property write `o[k] = v`: updates the field in place (keeping its
position) when present, appends it otherwise — JavaScript object semantics. -/
def setKey : JsObj → String → JsVal → JsObj
  | [], k, v => [(k, v)]
  | p :: rest, k, v => if p.1 = k then (k, v) :: rest else p :: setKey rest k v

/-- `Object.assign (target, source)`: writes every field of `source` into
`target` in source order and returns the (mutated) target. -/
def objAssign (target : JsObj) : JsObj → JsObj
  | [] => target
  | p :: rest => objAssign (setKey target p.1 p.2) rest

/-- Strict-mode evaluation of an identifier that has no binding in scope: a
`ReferenceError`.  Several operations in the source reference identifiers
(e.g. `symbol`, `timestamp`, `options`) that are never declared in their
method signature; this models reading such a free identifier. -/
def freeIdent (α : Type) (name : String) : Except JsError α :=
  .error (.referenceError name)

/-- Uppercases a string character by character (`String.toUpperCase`). -/
def jsStrUpper (s : String) : String :=
  ⟨s.data.map Char.toUpper⟩

/-- `s.toUpperCase ()`: uppercases a string, `TypeError` on any other value. -/
def jsToUpper : JsVal → Except JsError JsVal
  | .str s => .ok (.str (jsStrUpper s))
  | _ => .error (.typeError "toUpperCase is not a function")

/-- Which dispatcher method an operation delegates to: `signRequest` (the
signed/authenticated path) or `publicRequest` (the unsigned path). -/
inductive DispatchPath where
  | signRequest
  | publicRequest
deriving DecidableEq

/-- Modelled from the spec (the dispatcher `src/APIBase.js` is not under
src/): the request descriptor an operation hands to the dispatcher — HTTP
verb, path, the dispatch path used, and the final parameter object. -/
structure Request where
  httpMethod : String
  path : String
  dispatch : DispatchPath
  params : JsObj

-- Lemmas about the object model, used by several claim proofs.

theorem getField_setKey_self (o : JsObj) (k : String) (v : JsVal) :
    getField (setKey o k v) k = v := by
  induction o with
  | nil => simp [setKey, getField]
  | cons p rest ih =>
    by_cases h : p.1 = k
    · simp [setKey, h, getField]
    · simp [setKey, h, getField, ih]

theorem getField_setKey_ne (o : JsObj) (k k' : String) (v : JsVal)
    (h : k' ≠ k) : getField (setKey o k' v) k = getField o k := by
  induction o with
  | nil => simp [setKey, getField, h]
  | cons p rest ih =>
    by_cases hp : p.1 = k'
    · simp [setKey, hp, getField, h, hp ▸ h]
    · simp [setKey, hp, getField, ih]

theorem getField_setKey (o : JsObj) (k k' : String) (v : JsVal) :
    getField (setKey o k' v) k = if k' = k then v else getField o k := by
  by_cases h : k' = k
  · simp [h, getField_setKey_self]
  · simp [h, getField_setKey_ne o k k' v h]

/-- The value the last field named `k` in `src` carries, if any. -/
def lastVal : JsObj → String → Option JsVal
  | [], _ => none
  | p :: rest, k =>
    match lastVal rest k with
    | some v => some v
    | none => if p.1 = k then some p.2 else none

theorem getField_objAssign (src : JsObj) (t : JsObj) (k : String) :
    getField (objAssign t src) k =
      match lastVal src k with
      | some v => v
      | none => getField t k := by
  induction src generalizing t with
  | nil => simp [objAssign, lastVal]
  | cons p rest ih =>
    show getField (objAssign (setKey t p.1 p.2) rest) k = _
    rw [ih]
    cases hrest : lastVal rest k with
    | some v => simp [lastVal, hrest]
    | none =>
      simp only [lastVal, hrest, getField_setKey]
      by_cases h : p.1 = k <;> simp [h]

-- Operation embeddings, transcribed one-to-one from the source modules.
-- Each operation returns the request it hands to the dispatcher together
-- with the caller's `options` object as it stands after the call (the source
-- mutates the caller's object via `Object.assign (options, ...)`, and passes
-- that same object to the dispatcher, so the two components alias).

/-- Trade module, `newOrder (symbol, side, type, timestamp, options = {})`:
validates the four required parameters, then dispatches
POST /fapi/v1/order via `signRequest` with `symbol`, `side` and `type`
uppercased and merged into `options` together with `timestamp`. -/
def newOrder (symbol side type timestamp : JsVal) (options : JsObj) :
    Except JsError (Request × JsObj) :=
  match validateRequiredParameters
      [("symbol", symbol), ("side", side), ("type", type),
       ("timestamp", timestamp)] with
  | .error e => .error e
  | .ok _ =>
    match jsToUpper symbol, jsToUpper side, jsToUpper type with
    | .error e, _, _ => .error e
    | .ok _, .error e, _ => .error e
    | .ok _, .ok _, .error e => .error e
    | .ok symbolU, .ok sideU, .ok typeU =>
      let params := objAssign options
        [("symbol", symbolU), ("side", sideU), ("type", typeU),
         ("timestamp", timestamp)]
      .ok (⟨"POST", "/fapi/v1/order", .signRequest, params⟩, params)

/-- The per-element loop of `placeMultipleOrder`: for each batch element,
destructures `symbol`, `side`, `type`, `quantity` and validates them. -/
def validateBatchElems : List JsObj → Except JsError Unit
  | [] => .ok ()
  | el :: rest =>
    match validateRequiredParameters
        [("symbol", getField el "symbol"), ("side", getField el "side"),
         ("type", getField el "type"), ("quantity", getField el "quantity")]
      with
    | .error e => .error e
    | .ok _ => validateBatchElems rest

/-- Trade module, `placeMultipleOrder (batchOrders, timestamp, options = {})`:
validates `symbol`, `side`, `type`, `quantity` of every batch element, then
validates `timestamp`, then dispatches POST /fapi/v1/batchOrders via
`signRequest` with `batchOrders` forwarded unchanged (in particular, symbols
inside the elements are not uppercased). -/
def placeMultipleOrder (batchOrders : List JsObj) (timestamp : JsVal)
    (options : JsObj) : Except JsError (Request × JsObj) :=
  match validateBatchElems batchOrders with
  | .error e => .error e
  | .ok _ =>
    match validateRequiredParameters [("timestamp", timestamp)] with
    | .error e => .error e
    | .ok _ =>
      let params := objAssign options
        [("batchOrders", .arr (batchOrders.map .obj)),
         ("timestamp", timestamp)]
      .ok (⟨"POST", "/fapi/v1/batchOrders", .signRequest, params⟩, params)

/-- Trade module, `cancelOrder (symbol, timestamp, options = {})`: validates
both parameters and dispatches DELETE /fapi/v1/order via `signRequest` with
the symbol uppercased. -/
def cancelOrder (symbol timestamp : JsVal) (options : JsObj) :
    Except JsError (Request × JsObj) :=
  match validateRequiredParameters
      [("symbol", symbol), ("timestamp", timestamp)] with
  | .error e => .error e
  | .ok _ =>
    match jsToUpper symbol with
    | .error e => .error e
    | .ok symbolU =>
      let params := objAssign options
        [("symbol", symbolU), ("timestamp", timestamp)]
      .ok (⟨"DELETE", "/fapi/v1/order", .signRequest, params⟩, params)

/-- Trade module (first variant), `queryOrder (symbol, timestamp,
options = {})`: validates both parameters and dispatches GET /fapi/v1/order
via `publicRequest` — the unsigned path — with the symbol uppercased. -/
def queryOrder (symbol timestamp : JsVal) (options : JsObj) :
    Except JsError (Request × JsObj) :=
  match validateRequiredParameters
      [("symbol", symbol), ("timestamp", timestamp)] with
  | .error e => .error e
  | .ok _ =>
    match jsToUpper symbol with
    | .error e => .error e
    | .ok symbolU =>
      let params := objAssign options
        [("symbol", symbolU), ("timestamp", timestamp)]
      .ok (⟨"GET", "/fapi/v1/order", .publicRequest, params⟩, params)

/-- Market module, `depth (symbol, options = {})`: validates `symbol` and
dispatches GET /fapi/v1/depth via `publicRequest` with it uppercased. -/
def depth (symbol : JsVal) (options : JsObj) :
    Except JsError (Request × JsObj) :=
  match validateRequiredParameters [("symbol", symbol)] with
  | .error e => .error e
  | .ok _ =>
    match jsToUpper symbol with
    | .error e => .error e
    | .ok symbolU =>
      let params := objAssign options [("symbol", symbolU)]
      .ok (⟨"GET", "/fapi/v1/depth", .publicRequest, params⟩, params)

/-- Uppercases every element of a JS array (`xs.map (s => s.toUpperCase ())`);
`TypeError` on a non-array. -/
def mapUpperList : List JsVal → Except JsError (List JsVal)
  | [] => .ok []
  | v :: rest =>
    match jsToUpper v with
    | .error e => .error e
    | .ok u =>
      match mapUpperList rest with
      | .error e => .error e
      | .ok us => .ok (u :: us)

/-- Market module, `exchangeInfo (options = {})`: uppercases `options.symbol`
and each element of `options.symbols` in place when present, then dispatches
GET /fapi/v1/exchangeInfo via `publicRequest` with the mutated options. -/
def exchangeInfo (options : JsObj) : Except JsError (Request × JsObj) :=
  match (if hasKey options "symbol" then
           match jsToUpper (getField options "symbol") with
           | .error e => .error e
           | .ok u => .ok (setKey options "symbol" u)
         else .ok options : Except JsError JsObj) with
  | .error e => .error e
  | .ok o1 =>
    match (if hasKey o1 "symbols" then
             match getField o1 "symbols" with
             | .arr xs =>
               match mapUpperList xs with
               | .error e => .error e
               | .ok us => .ok (setKey o1 "symbols" (.arr us))
             | _ => .error (.typeError "map is not a function")
           else .ok o1 : Except JsError JsObj) with
    | .error e => .error e
    | .ok o2 => .ok (⟨"GET", "/fapi/v1/exchangeInfo", .publicRequest, o2⟩, o2)

/-- Trade module (first variant), `forceOrders (timestamp, options = {})`:
the body evaluates `validateRequiredParameters ({ symbol, timestamp })`, but
`symbol` is never declared in the method's signature, so every call reads a
free identifier and throws a `ReferenceError` before anything else runs. -/
def forceOrders (timestamp : JsVal) (options : JsObj) :
    Except JsError (Request × JsObj) :=
  match freeIdent JsVal "symbol" with
  | .error e => .error e
  | .ok symbol =>
    match validateRequiredParameters
        [("symbol", symbol), ("timestamp", timestamp)] with
    | .error e => .error e
    | .ok _ =>
      let params := objAssign options [("timestamp", timestamp)]
      .ok (⟨"GET", "/fapi/v1/forceOrders", .publicRequest, params⟩, params)

/-- Account module, `futuresAccountBalanceV3 ()`: the method declares no
parameters, yet its body evaluates `validateRequiredParameters
({ timestamp })` and `Object.assign (options, { timestamp })` — `timestamp`
and `options` are free identifiers, so every call throws a `ReferenceError`
when the first object literal reads `timestamp`. -/
def futuresAccountBalanceV3 : Except JsError (Request × JsObj) :=
  match freeIdent JsVal "timestamp" with
  | .error e => .error e
  | .ok ts =>
    match validateRequiredParameters [("timestamp", ts)] with
    | .error e => .error e
    | .ok _ =>
      match freeIdent JsObj "options", freeIdent JsVal "timestamp" with
      | .error e, _ => .error e
      | _, .error e => .error e
      | .ok options, .ok ts2 =>
        let params := objAssign options [("timestamp", ts2)]
        .ok (⟨"GET", "/fapi/v3/balance", .publicRequest, params⟩, params)

/-- Account module, `futuresSymbolConfiguration ()`: declares no parameters
but references `timestamp`, `options` and `symbol` — all free identifiers —
so every call throws a `ReferenceError` at the first read (`timestamp`). -/
def futuresSymbolConfiguration : Except JsError (Request × JsObj) :=
  match freeIdent JsVal "timestamp" with
  | .error e => .error e
  | .ok ts =>
    match validateRequiredParameters [("timestamp", ts)] with
    | .error e => .error e
    | .ok _ =>
      match freeIdent JsObj "options", freeIdent JsVal "symbol" with
      | .error e, _ => .error e
      | _, .error e => .error e
      | .ok options, .ok symbol =>
        match jsToUpper symbol, freeIdent JsVal "timestamp" with
        | .error e, _ => .error e
        | _, .error e => .error e
        | .ok symbolU, .ok ts2 =>
          let params := objAssign options
            [("symbol", symbolU), ("timestamp", ts2)]
          .ok (⟨"GET", "/fapi/v1/symbolConfig", .publicRequest, params⟩,
               params)

/-- `Futures` constructor (`src/futures.js`): writes
`options.baseURL = options.baseURL || "https://fapi.binance.com"` into the
caller's options object, then calls `super ({ apiKey, apiSecret,
...options })`.  Returns the configuration object handed to `APIBase`
together with the caller's options object as mutated. -/
def futuresConstructor (apiKey apiSecret : JsVal) (options : JsObj) :
    JsObj × JsObj :=
  let resolved := if jsTruthy (getField options "baseURL")
    then getField options "baseURL"
    else .str "https://fapi.binance.com"
  let options1 := setKey options "baseURL" resolved
  let cfg := objAssign [("apiKey", apiKey), ("apiSecret", apiSecret)] options1
  (cfg, options1)

/-- Static description of one operation definition of an endpoint module:
its method name, HTTP verb, path, and the dispatcher path its body calls. -/
structure OpDef where
  name : String
  httpMethod : String
  path : String
  dispatch : DispatchPath
deriving DecidableEq

/-- The Account module's operation definitions, in source order. -/
def accountOps : List OpDef :=
  [⟨"futuresAccountBalanceV3", "GET", "/fapi/v3/balance", .publicRequest⟩,
   ⟨"futuresAccountBalanceV2", "GET", "/fapi/v2/balance", .publicRequest⟩,
   ⟨"accountInformationV3", "GET", "/fapi/v3/account", .publicRequest⟩,
   ⟨"accountInformationV2", "GET", "/fapi/v2/account", .publicRequest⟩,
   ⟨"userComissionRate", "GET", "/fapi/v1/commissionRate", .publicRequest⟩,
   ⟨"futuresAccountConfiguration", "GET", "/fapi/v1/accountConfig",
    .publicRequest⟩,
   ⟨"futuresSymbolConfiguration", "GET", "/fapi/v1/symbolConfig",
    .publicRequest⟩,
   ⟨"queryOrderRateLimit", "GET", "/fapi/v1/rateLimit/order",
    .publicRequest⟩,
   ⟨"leverageBracket", "GET", "/fapi/v1/leverageBracket", .publicRequest⟩,
   ⟨"multiAssetMargin", "GET", "/fapi/v1/multiAssetsMargin",
    .publicRequest⟩,
   ⟨"currentPositionMode", "GET", "/fapi/v1/positionSide/dual",
    .publicRequest⟩,
   ⟨"getIncomeHistory", "GET", "/fapi/v1/income", .publicRequest⟩,
   ⟨"apiTradingStatus", "GET", "/fapi/v1/apiTradingStatus",
    .publicRequest⟩,
   ⟨"getDownloadIdTransactionHistory", "GET", "/fapi/v1/income/asyn",
    .publicRequest⟩]

/-- The first Trade module variant's operation definitions, in source order.
Note the two `newOrder` definitions: the production order endpoint and, at
the end of the class body, a second definition targeting the test endpoint
that silently shadows the first one under JavaScript class semantics. -/
def tradeOps : List OpDef :=
  [⟨"newOrder", "POST", "/fapi/v1/order", .signRequest⟩,
   ⟨"placeMultipleOrder", "POST", "/fapi/v1/batchOrders", .signRequest⟩,
   ⟨"modifyOrder", "PUT", "/fapi/v1/order", .signRequest⟩,
   ⟨"modifyMultipleOrder", "PUT", "/fapi/v1/batchOrders", .signRequest⟩,
   ⟨"orderModifyHistory", "GET", "/fapi/v1/orderAmendment",
    .publicRequest⟩,
   ⟨"cancelOrder", "DELETE", "/fapi/v1/order", .signRequest⟩,
   ⟨"cancelMultipleOrders", "DELETE", "/fapi/v1/batchOrders",
    .signRequest⟩,
   ⟨"cancelAllOpenOrders", "DELETE", "/fapi/v1/allOpenOrders",
    .signRequest⟩,
   ⟨"countDownCancelAll", "POST", "/fapi/v1/countdownCancelAll",
    .signRequest⟩,
   ⟨"queryOrder", "GET", "/fapi/v1/order", .publicRequest⟩,
   ⟨"queryAllOrders", "GET", "/fapi/v1/allOrders", .publicRequest⟩,
   ⟨"queryCurrentAllOpenOrders", "GET", "/fapi/v1/openOrders",
    .publicRequest⟩,
   ⟨"queryCurrentOpenOrder", "GET", "/fapi/v1/openOrder", .publicRequest⟩,
   ⟨"forceOrders", "GET", "/fapi/v1/forceOrders", .publicRequest⟩,
   ⟨"queryUserTrades", "GET", "/fapi/v1/userTrades", .publicRequest⟩,
   ⟨"changeMarginType", "POST", "/fapi/v1/marginType", .signRequest⟩,
   ⟨"changePositionMode", "POST", "/fapi/v1/positionSide/dual",
    .signRequest⟩,
   ⟨"changeLeverage", "POST", "/fapi/v1/leverage", .signRequest⟩,
   ⟨"changeMultiAssetType", "POST", "/fapi/v1/multiAssetsMargin",
    .signRequest⟩,
   ⟨"modifyIsolatedMargin", "POST", "/fapi/v1/positionMargin",
    .signRequest⟩,
   ⟨"positionInformationV2", "GET", "/fapi/v2/positionRisk",
    .publicRequest⟩,
   ⟨"positionInformationV3", "GET", "/fapi/v3/positionRisk",
    .publicRequest⟩,
   ⟨"adlQuantile", "GET", "/fapi/v3/positionRisk", .publicRequest⟩,
   ⟨"positionMarginHistory", "GET", "/fapi/v1/positionMargin/history",
    .publicRequest⟩,
   ⟨"newOrder", "POST", "/fapi/v1/order/test", .signRequest⟩]

/-- The second Trade module variant's operation definitions, in source
order (every operation dispatches via `signRequest`). -/
def tradeOpsAlt : List OpDef :=
  [⟨"newOrder", "POST", "/fapi/v1/order", .signRequest⟩,
   ⟨"placeMultipleOrder", "POST", "/fapi/v1/batchOrders", .signRequest⟩,
   ⟨"modifyOrder", "PUT", "/fapi/v1/order", .signRequest⟩,
   ⟨"modifyMultipleOrder", "PUT", "/fapi/v1/batchOrders", .signRequest⟩,
   ⟨"orderModifyHistory", "GET", "/fapi/v1/orderAmendment", .signRequest⟩,
   ⟨"cancelOrder", "DELETE", "/fapi/v1/order", .signRequest⟩,
   ⟨"cancelMultipleOrders", "DELETE", "/fapi/v1/batchOrders",
    .signRequest⟩,
   ⟨"cancelAllOpenOrders", "DELETE", "/fapi/v1/allOpenOrders",
    .signRequest⟩,
   ⟨"countDownCancelAll", "POST", "/fapi/v1/countdownCancelAll",
    .signRequest⟩,
   ⟨"queryOrder", "GET", "/fapi/v1/order", .signRequest⟩,
   ⟨"queryAllOrders", "GET", "/fapi/v1/allOrders", .signRequest⟩,
   ⟨"queryCurrentAllOpenOrders", "GET", "/fapi/v1/openOrders",
    .signRequest⟩,
   ⟨"queryCurrentOpenOrder", "GET", "/fapi/v1/openOrder", .signRequest⟩,
   ⟨"forceOrders", "GET", "/fapi/v1/forceOrders", .signRequest⟩,
   ⟨"queryUserTrades", "GET", "/fapi/v1/userTrades", .signRequest⟩,
   ⟨"changeMarginType", "POST", "/fapi/v1/marginType", .signRequest⟩,
   ⟨"changePositionMode", "POST", "/fapi/v1/positionSide/dual",
    .signRequest⟩]

/-- The Market module's operation definitions, in source order (the module
defines `markklines` twice, with identical bodies). -/
def marketOps : List OpDef :=
  [⟨"ping", "GET", "/fapi/v1/ping", .publicRequest⟩,
   ⟨"time", "GET", "/fapi/v1/time", .publicRequest⟩,
   ⟨"exchangeInfo", "GET", "/fapi/v1/exchangeInfo", .publicRequest⟩,
   ⟨"depth", "GET", "/fapi/v1/depth", .publicRequest⟩,
   ⟨"trades", "GET", "/fapi/v1/trades", .publicRequest⟩,
   ⟨"historicalTrades", "GET", "/fapi/v1/historicalTrades",
    .publicRequest⟩,
   ⟨"aggTrades", "GET", "/fapi/v1/aggTrades", .publicRequest⟩,
   ⟨"klines", "GET", "/fapi/v1/klines", .publicRequest⟩,
   ⟨"continousklines", "GET", "/fapi/v1/continuousKlines",
    .publicRequest⟩,
   ⟨"indexklines", "GET", "/fapi/v1/indexPriceKlines", .publicRequest⟩,
   ⟨"markklines", "GET", "/fapi/v1/markPriceKlines", .publicRequest⟩,
   ⟨"markklines", "GET", "/fapi/v1/markPriceKlines", .publicRequest⟩,
   ⟨"premiumindexklines", "GET", "/fapi/v1/premiumIndexKlines",
    .publicRequest⟩,
   ⟨"premiumindex", "GET", "/fapi/v1/premiumIndex", .publicRequest⟩,
   ⟨"fundingRateHistory", "GET", "/fapi/v1/fundingRate", .publicRequest⟩,
   ⟨"fundingInfo", "GET", "/fapi/v1/fundingInfo", .publicRequest⟩,
   ⟨"priceChange24H", "GET", "/fapi/v1/ticker/24hr", .publicRequest⟩,
   ⟨"symbolPriceTicker", "GET", "/fapi/v1/ticker/price", .publicRequest⟩,
   ⟨"symbolPriceTickerV2", "GET", "/fapi/v2/ticker/price",
    .publicRequest⟩,
   ⟨"bookTicker", "GET", "/fapi/v1/ticker/bookTicker", .publicRequest⟩,
   ⟨"openInterest", "GET", "/fapi/v1/openInterest", .publicRequest⟩,
   ⟨"deliveryPrice", "GET", "/futures/data/delivery-price",
    .publicRequest⟩,
   ⟨"openInterestHist", "GET", "/futures/data/openInterestHist",
    .publicRequest⟩,
   ⟨"topLongShortAccountRatio", "GET",
    "/futures/data/topLongShortAccountRatio", .publicRequest⟩,
   ⟨"topLongShortPositionRatio", "GET",
    "/futures/data/topLongShortPositionRatio", .publicRequest⟩,
   ⟨"globalLongShortAccountRatio", "GET",
    "/futures/data/globalLongShortAccountRatio", .publicRequest⟩,
   ⟨"takerlongshortRatio", "GET", "/futures/data/takerlongshortRatio",
    .publicRequest⟩,
   ⟨"basis", "GET", "/futures/data/basis", .publicRequest⟩,
   ⟨"lvtKlines", "GET", "/fapi/v1/lvtKlines", .publicRequest⟩,
   ⟨"indexInfo", "GET", "/fapi/v1/indexInfo", .publicRequest⟩,
   ⟨"assetIndex", "GET", "/fapi/v1/assetIndex", .publicRequest⟩,
   ⟨"constituents", "GET", "/fapi/v1/constituents", .publicRequest⟩]

/-- All definitions a module contributes for a given method name. -/
def defsNamed (ops : List OpDef) (n : String) : List OpDef :=
  ops.filter (fun o => o.name = n)

/-- The definition a method name is actually bound to: under JavaScript
class bodies (and the mixin chain) a later definition of the same name
silently overrides an earlier one, so the last definition wins. -/
def effectiveBinding (ops : List OpDef) (n : String) : Option OpDef :=
  (defsNamed ops n).getLast?

/-- A call to one of the embedded operations, with its arguments. -/
inductive OpCall where
  | newOrder (symbol side type timestamp : JsVal) (options : JsObj)
  | placeMultipleOrder (batchOrders : List JsObj) (timestamp : JsVal)
      (options : JsObj)
  | cancelOrder (symbol timestamp : JsVal) (options : JsObj)
  | queryOrder (symbol timestamp : JsVal) (options : JsObj)
  | depth (symbol : JsVal) (options : JsObj)
  | exchangeInfo (options : JsObj)
  | forceOrders (timestamp : JsVal) (options : JsObj)
  | futuresAccountBalanceV3
  | futuresSymbolConfiguration

/-- Runs an operation against a client whose configuration object (base URL,
credentials, timeout — the object built by the `Futures` constructor) is
`cfg`.  The operation bodies never assign to any configuration property
(`this.baseURL`, `this.apiKey`, `this.apiSecret`, `this.timeout`), which this
embedding reflects by threading `cfg` through unchanged; the result carries
the configuration as it stands after the call. -/
def runOp (cfg : JsObj) : OpCall → Except JsError (JsObj × Request × JsObj)
  | .newOrder s sd ty ts o =>
    match newOrder s sd ty ts o with
    | .error e => .error e
    | .ok r => .ok (cfg, r)
  | .placeMultipleOrder b ts o =>
    match placeMultipleOrder b ts o with
    | .error e => .error e
    | .ok r => .ok (cfg, r)
  | .cancelOrder s ts o =>
    match cancelOrder s ts o with
    | .error e => .error e
    | .ok r => .ok (cfg, r)
  | .queryOrder s ts o =>
    match queryOrder s ts o with
    | .error e => .error e
    | .ok r => .ok (cfg, r)
  | .depth s o =>
    match depth s o with
    | .error e => .error e
    | .ok r => .ok (cfg, r)
  | .exchangeInfo o =>
    match exchangeInfo o with
    | .error e => .error e
    | .ok r => .ok (cfg, r)
  | .forceOrders ts o =>
    match forceOrders ts o with
    | .error e => .error e
    | .ok r => .ok (cfg, r)
  | .futuresAccountBalanceV3 =>
    match futuresAccountBalanceV3 with
    | .error e => .error e
    | .ok r => .ok (cfg, r)
  | .futuresSymbolConfiguration =>
    match futuresSymbolConfiguration with
    | .error e => .error e
    | .ok r => .ok (cfg, r)

-- The request signer's canonical serialization (Modelled from the spec: the
-- signer lives in `src/APIBase.js` / `src/helpers/utils.js`, which are not
-- under src/).  Per the spec, the signer serializes the outgoing parameter
-- set into a canonical query string with insertion order preserved, where
-- any encoding difference is a hard correctness bug, and computes an
-- HMAC-SHA256 signature over that string with the API secret.

/-- Percent-encoding of the characters that are significant in a query
string (the separator and assignment characters, and the escape character
itself); all other characters pass through. -/
def pctEncodeChar (c : Char) : List Char :=
  if c = '&' then ['%', '2', '6']
  else if c = '=' then ['%', '3', 'D']
  else if c = '%' then ['%', '2', '5']
  else [c]

/-- Percent-encodes a parameter value. -/
def pctEncode : List Char → List Char
  | [] => []
  | c :: rest => pctEncodeChar c ++ pctEncode rest

/-- Decodes one two-digit escape produced by `pctEncodeChar`. -/
def unescapeHexPair (a b : Char) : Char :=
  if a = '2' ∧ b = '6' then '&'
  else if a = '3' ∧ b = 'D' then '='
  else '%'

/-- Decodes the escape sequences produced by `pctEncode`. -/
def pctDecode : List Char → List Char
  | [] => []
  | c :: rest =>
    if c = '%' then
      match rest with
      | a :: b :: rest2 => unescapeHexPair a b :: pctDecode rest2
      | [] => ['%']
      | [a] => ['%', a]
    else c :: pctDecode rest

/-- One `key=value` field of the canonical query string. -/
def fieldChars (p : String × String) : List Char :=
  p.1.data ++ '=' :: pctEncode p.2.data

/-- Serializes an insertion-ordered parameter list into the canonical query
string (fields joined by the separator, insertion order preserved — never
alphabetized). -/
def serializeChars : List (String × String) → List Char
  | [] => []
  | [p] => fieldChars p
  | p :: q :: rest => fieldChars p ++ '&' :: serializeChars (q :: rest)

/-- The canonical query string over which the signature is computed. -/
def canonicalQueryString (params : List (String × String)) : String :=
  ⟨serializeChars params⟩

/-- Modelled from the spec: the HMAC-SHA256 signature, represented
symbolically as the MAC term formed from the API secret and the message
(the canonical query string).  Two MAC terms are equal exactly when secret
and message agree. -/
structure HmacSha256 where
  secret : String
  message : String
deriving DecidableEq

/-- Signing an insertion-ordered parameter set with the API secret. -/
def signParams (secret : String) (params : List (String × String)) :
    HmacSha256 :=
  ⟨secret, canonicalQueryString params⟩

/-- A parameter key is well formed when it contains neither the field
separator nor the assignment character (every key in the source is a
JavaScript identifier, so this holds for all real parameter sets). -/
def wellFormedKeys (params : List (String × String)) : Prop :=
  ∀ p ∈ params, '&' ∉ p.1.data ∧ '=' ∉ p.1.data

instance (params : List (String × String)) :
    Decidable (wellFormedKeys params) := by
  unfold wellFormedKeys
  infer_instance

/-- Splits the canonical query string into its fields at each separator. -/
def splitAmp : List Char → List (List Char)
  | [] => [[]]
  | c :: rest =>
    if c = '&' then [] :: splitAmp rest
    else
      match splitAmp rest with
      | [] => [[c]]
      | f :: fs => (c :: f) :: fs

/-- Splits one field at its first assignment character. -/
def splitEq : List Char → List Char × List Char
  | [] => ([], [])
  | c :: rest =>
    if c = '=' then ([], rest)
    else
      let p := splitEq rest
      (c :: p.1, p.2)

/-- Recovers the parameter list from a canonical query string. -/
def parseQueryChars (s : List Char) : List (String × String) :=
  (splitAmp s).map (fun f =>
    let p := splitEq f
    (⟨p.1⟩, ⟨pctDecode p.2⟩))

-- Roundtrip lemmas for the canonical serialization: parsing recovers the
-- exact parameter list, hence the serialization is injective and any change
-- of a value or of the insertion order changes the canonical query string.

theorem amp_not_mem_pctEncodeChar (c : Char) : '&' ∉ pctEncodeChar c := by
  unfold pctEncodeChar
  by_cases h1 : c = '&'
  · simp [h1]
  · by_cases h2 : c = '='
    · simp [h2]
    · by_cases h3 : c = '%'
      · simp [h3]
      · simp only [if_neg h1, if_neg h2, if_neg h3, List.mem_singleton]
        exact fun h => h1 h.symm

theorem amp_not_mem_pctEncode (s : List Char) : '&' ∉ pctEncode s := by
  induction s with
  | nil => simp [pctEncode]
  | cons c rest ih =>
    simp only [pctEncode, List.mem_append]
    intro h
    rcases h with h | h
    · exact amp_not_mem_pctEncodeChar c h
    · exact ih h

theorem pctDecode_cons_of_ne (c : Char) (l : List Char) (h : c ≠ '%') :
    pctDecode (c :: l) = c :: pctDecode l := by
  rw [pctDecode.eq_def]
  dsimp only
  rw [if_neg h]

theorem pctDecode_escape (a b : Char) (l : List Char) :
    pctDecode ('%' :: a :: b :: l) = unescapeHexPair a b :: pctDecode l := by
  rw [pctDecode.eq_def]
  dsimp only
  simp

theorem pctDecode_pctEncode (s : List Char) :
    pctDecode (pctEncode s) = s := by
  induction s with
  | nil => simp [pctEncode, pctDecode]
  | cons c rest ih =>
    show pctDecode (pctEncodeChar c ++ pctEncode rest) = c :: rest
    by_cases h1 : c = '&'
    · subst h1
      have he : pctEncodeChar '&' = ['%', '2', '6'] := by decide
      have hu : unescapeHexPair '2' '6' = '&' := by decide
      rw [he, List.cons_append, List.cons_append, List.cons_append,
        List.nil_append, pctDecode_escape, hu, ih]
    · by_cases h2 : c = '='
      · subst h2
        have he : pctEncodeChar '=' = ['%', '3', 'D'] := by decide
        have hu : unescapeHexPair '3' 'D' = '=' := by decide
        rw [he, List.cons_append, List.cons_append, List.cons_append,
          List.nil_append, pctDecode_escape, hu, ih]
      · by_cases h3 : c = '%'
        · subst h3
          have he : pctEncodeChar '%' = ['%', '2', '5'] := by decide
          have hu : unescapeHexPair '2' '5' = '%' := by decide
          rw [he, List.cons_append, List.cons_append, List.cons_append,
            List.nil_append, pctDecode_escape, hu, ih]
        · have he : pctEncodeChar c = [c] := by
            simp [pctEncodeChar, h1, h2, h3]
          rw [he, List.cons_append, List.nil_append,
            pctDecode_cons_of_ne c _ h3, ih]

theorem splitAmp_of_not_mem (f : List Char) (h : '&' ∉ f) :
    splitAmp f = [f] := by
  induction f with
  | nil => rfl
  | cons c rest ih =>
    rw [splitAmp.eq_def]
    dsimp only
    rw [List.mem_cons, not_or] at h
    rw [if_neg (fun hc => h.1 hc.symm), ih h.2]

theorem splitAmp_append (f s : List Char) (h : '&' ∉ f) :
    splitAmp (f ++ '&' :: s) = f :: splitAmp s := by
  induction f with
  | nil =>
    rw [List.nil_append, splitAmp.eq_def]
    dsimp only
    rw [if_pos rfl]
  | cons c rest ih =>
    rw [List.mem_cons, not_or] at h
    rw [List.cons_append, splitAmp.eq_def]
    dsimp only
    rw [if_neg (fun hc => h.1 hc.symm), ih h.2]

theorem splitEq_append (k v : List Char) (h : '=' ∉ k) :
    splitEq (k ++ '=' :: v) = (k, v) := by
  induction k with
  | nil =>
    rw [List.nil_append, splitEq.eq_def]
    dsimp only
    rw [if_pos rfl]
  | cons c rest ih =>
    rw [List.mem_cons, not_or] at h
    rw [List.cons_append, splitEq.eq_def]
    dsimp only
    rw [if_neg (fun hc => h.1 hc.symm), ih h.2]

theorem amp_not_mem_fieldChars (p : String × String)
    (hk : '&' ∉ p.1.data) : '&' ∉ fieldChars p := by
  unfold fieldChars
  rw [List.mem_append, List.mem_cons]
  push_neg
  exact ⟨hk, by decide, amp_not_mem_pctEncode p.2.data⟩

theorem parseQueryChars_serializeChars (l : List (String × String))
    (hw : wellFormedKeys l) (hne : l ≠ []) :
    parseQueryChars (serializeChars l) = l := by
  induction l with
  | nil => exact absurd rfl hne
  | cons p rest ih =>
    have hp := hw p (List.mem_cons_self p rest)
    have hfield : parseQueryChars (fieldChars p) = [p] := by
      unfold parseQueryChars
      rw [splitAmp_of_not_mem _ (amp_not_mem_fieldChars p hp.1),
        List.map_singleton]
      unfold fieldChars
      rw [splitEq_append _ _ hp.2]
      dsimp only
      rw [pctDecode_pctEncode]
    cases rest with
    | nil =>
      show parseQueryChars (fieldChars p) = [p]
      exact hfield
    | cons q rest2 =>
      have hw2 : wellFormedKeys (q :: rest2) :=
        fun x hx => hw x (List.mem_cons_of_mem p hx)
      show parseQueryChars
          (fieldChars p ++ '&' :: serializeChars (q :: rest2)) = _
      unfold parseQueryChars
      rw [splitAmp_append _ _ (amp_not_mem_fieldChars p hp.1), List.map_cons]
      have h1 : (let pr := splitEq (fieldChars p)
          ((⟨pr.1⟩ : String), (⟨pctDecode pr.2⟩ : String))) = p := by
        unfold fieldChars
        rw [splitEq_append _ _ hp.2]
        dsimp only
        rw [pctDecode_pctEncode]
      rw [h1]
      have h2 := ih hw2 (List.cons_ne_nil q rest2)
      unfold parseQueryChars at h2
      rw [h2]

/-- The canonical serialization is injective on nonempty parameter lists
with well-formed keys: any change of a value or of a parameter's position
changes the canonical query string. -/
theorem serializeChars_inj (l1 l2 : List (String × String))
    (h1 : wellFormedKeys l1) (h2 : wellFormedKeys l2)
    (hne1 : l1 ≠ []) (hne2 : l2 ≠ [])
    (heq : serializeChars l1 = serializeChars l2) : l1 = l2 := by
  rw [← parseQueryChars_serializeChars l1 h1 hne1,
    ← parseQueryChars_serializeChars l2 h2 hne2, heq]

-- Further supporting lemmas about the validator and the object model.

theorem missingNames_eq_nil_iff (ps : List (String × JsVal)) :
    missingNames ps = [] ↔ ∀ p ∈ ps, isEmptyValue p.2 = false := by
  unfold missingNames
  rw [List.map_eq_nil_iff, List.filter_eq_nil_iff]
  simp

theorem missingNames_subset_keys (ps : List (String × JsVal)) :
    ∀ n ∈ missingNames ps, n ∈ ps.map Prod.fst := by
  intro n hn
  unfold missingNames at hn
  rw [List.mem_map] at hn
  obtain ⟨p, hp, rfl⟩ := hn
  exact List.mem_map.mpr ⟨p, List.mem_of_mem_filter hp, rfl⟩

theorem lastVal_eq_none_of_not_mem (o : JsObj) (k : String)
    (h : k ∉ o.map Prod.fst) : lastVal o k = none := by
  induction o with
  | nil => rfl
  | cons p rest ih =>
    rw [List.map_cons, List.mem_cons, not_or] at h
    rw [lastVal.eq_def]
    dsimp only
    rw [ih h.2, if_neg (fun hc => h.1 hc.symm)]

theorem lastVal_setKey_self (o : JsObj) (k : String) (v : JsVal)
    (hnd : (o.map Prod.fst).Nodup) : lastVal (setKey o k v) k = some v := by
  induction o with
  | nil => simp [setKey, lastVal]
  | cons p rest ih =>
    rw [List.map_cons, List.nodup_cons] at hnd
    by_cases hp : p.1 = k
    · rw [setKey.eq_def]
      dsimp only
      rw [if_pos hp]
      have hnone : lastVal rest k = none :=
        lastVal_eq_none_of_not_mem rest k (hp ▸ hnd.1)
      simp [lastVal, hnone]
    · rw [setKey.eq_def]
      dsimp only
      rw [if_neg hp]
      simp [lastVal, ih hnd.2]

theorem hasKey_setKey_self (o : JsObj) (k : String) (v : JsVal) :
    hasKey (setKey o k v) k = true := by
  induction o with
  | nil => simp [setKey, hasKey]
  | cons p rest ih =>
    by_cases hp : p.1 = k <;> simp [setKey, hp, hasKey, ih]

/-- A batch element lacks one of the four per-element required fields. -/
def batchElemIncomplete (el : JsObj) : Bool :=
  isEmptyValue (getField el "symbol") || isEmptyValue (getField el "side") ||
    isEmptyValue (getField el "type") ||
    isEmptyValue (getField el "quantity")

theorem validateBatchElems_error (batch : List JsObj)
    (h : ∃ el ∈ batch, batchElemIncomplete el = true) :
    ∃ ns, validateBatchElems batch = .error (.missingParameterError ns) ∧
      ns ≠ [] ∧ ∀ n ∈ ns, n ∈ ["symbol", "side", "type", "quantity"] := by
  induction batch with
  | nil =>
    obtain ⟨el, hel, _⟩ := h
    cases hel
  | cons el rest ih =>
    cases hm : missingNames
        [("symbol", getField el "symbol"), ("side", getField el "side"),
         ("type", getField el "type"),
         ("quantity", getField el "quantity")] with
    | nil =>
      have hcomp : batchElemIncomplete el = false := by
        rw [missingNames_eq_nil_iff] at hm
        have h1 := hm ("symbol", getField el "symbol") (by simp)
        have h2 := hm ("side", getField el "side") (by simp)
        have h3 := hm ("type", getField el "type") (by simp)
        have h4 := hm ("quantity", getField el "quantity") (by simp)
        simp only at h1 h2 h3 h4
        simp [batchElemIncomplete, h1, h2, h3, h4]
      have h' : ∃ el' ∈ rest, batchElemIncomplete el' = true := by
        obtain ⟨el', hel', hbad⟩ := h
        rcases List.mem_cons.mp hel' with rfl | hmem
        · rw [hcomp] at hbad
          cases hbad
        · exact ⟨el', hmem, hbad⟩
      obtain ⟨ns, hns, hne, hsub⟩ := ih h'
      refine ⟨ns, ?_, hne, hsub⟩
      rw [validateBatchElems.eq_def]
      dsimp only
      rw [show validateRequiredParameters
          [("symbol", getField el "symbol"), ("side", getField el "side"),
           ("type", getField el "type"),
           ("quantity", getField el "quantity")] = .ok () from by
        unfold validateRequiredParameters
        rw [hm]]
      exact hns
    | cons n ns' =>
      refine ⟨n :: ns', ?_, by simp, ?_⟩
      · rw [validateBatchElems.eq_def]
        dsimp only
        rw [show validateRequiredParameters
            [("symbol", getField el "symbol"), ("side", getField el "side"),
             ("type", getField el "type"),
             ("quantity", getField el "quantity")] =
            .error (.missingParameterError (n :: ns')) from by
          unfold validateRequiredParameters
          rw [hm]]
      · intro x hx
        have hk := missingNames_subset_keys _ x (hm ▸ hx)
        simpa using hk

-- Claim theorems.

/-- C1 (counterexample): the claim — every Trade/Account operation is
dispatched via the signed path — fails on the code.  The Trade module's
`queryOrder`, called with concrete arguments, hands the dispatcher a request
on the unsigned path (`publicRequest`), and the Account module's
`futuresAccountBalanceV3` definition likewise delegates to `publicRequest`. -/
theorem tradeAndAccountOps_not_all_signed :
    (queryOrder (.str "BTCUSDT") (.num 1) []).toOption.map
        (fun r => r.1.dispatch) = some .publicRequest ∧
    (defsNamed accountOps "futuresAccountBalanceV3").map
        (fun o => o.dispatch) = [.publicRequest] :=
  ⟨rfl, rfl⟩

/-- C1 (amended): every Market operation dispatches via the unsigned path,
as claimed; but every Account operation also dispatches via the unsigned
path, and in the first Trade module variant an operation dispatches via the
signed path exactly when its HTTP method is not GET (its GET/query
operations use the unsigned path); only the second Trade variant dispatches
every operation via the signed path. -/
theorem dispatchPaths_by_module :
    (∀ o ∈ marketOps, o.dispatch = DispatchPath.publicRequest) ∧
    (∀ o ∈ accountOps, o.dispatch = DispatchPath.publicRequest) ∧
    (∀ o ∈ tradeOps,
      (o.dispatch = DispatchPath.signRequest ↔ o.httpMethod ≠ "GET")) ∧
    (∀ o ∈ tradeOpsAlt, o.dispatch = DispatchPath.signRequest) := by
  refine ⟨?_, ?_, ?_, ?_⟩ <;> decide

/-- C2: the Account module's `futuresSymbolConfiguration` declares required
parameters (its contract requires `timestamp`) but every call fails with a
`ReferenceError` — never a `MissingParameterError` — because the body reads
the undeclared identifier `timestamp`, contradicting the documented
fail-fast validation contract. -/
theorem futuresSymbolConfiguration_reference_error :
    futuresSymbolConfiguration = .error (.referenceError "timestamp") ∧
    ∀ ns, futuresSymbolConfiguration ≠
      .error (.missingParameterError ns) := by
  refine ⟨rfl, fun ns h => ?_⟩
  have h2 : JsError.referenceError "timestamp" =
      JsError.missingParameterError ns := Except.error.inj h
  cases h2

/-- C3 (counterexample): the claim — symbol normalization also reaches
symbols nested inside `batchOrders` elements — fails on the code.
`placeMultipleOrder` called with a lowercase symbol inside its single batch
element forwards the element unchanged: the outgoing request still carries
`"btcusdt"`, not `"BTCUSDT"`. -/
theorem placeMultipleOrder_batch_symbol_not_uppercased :
    (placeMultipleOrder
        [[("symbol", .str "btcusdt"), ("side", .str "BUY"),
          ("type", .str "MARKET"), ("quantity", .num 1)]]
        (.num 1700000000000) []).toOption.map
      (fun r => getField r.1.params "batchOrders") =
      some (.arr [.obj [("symbol", .str "btcusdt"), ("side", .str "BUY"),
        ("type", .str "MARKET"), ("quantity", .num 1)]]) ∧
    ("btcusdt" : String) ≠ "BTCUSDT" :=
  ⟨rfl, by decide⟩

/-- C4 (counterexample): the claim — no two operation definitions share a
method name, so every exposed name is bound to exactly one definition —
fails on the code: the first Trade module defines `newOrder` twice, with
different request paths (`/fapi/v1/order` and `/fapi/v1/order/test`). -/
theorem newOrder_has_two_definitions :
    (defsNamed tradeOps "newOrder").map (fun o => o.path) =
      ["/fapi/v1/order", "/fapi/v1/order/test"] ∧
    ("/fapi/v1/order" : String) ≠ "/fapi/v1/order/test" :=
  ⟨rfl, by decide⟩

/-- C4 (amended): the composition mechanism provides no conflict guarantee;
under JavaScript class/mixin semantics a repeated method name is silently
bound to the textually last definition.  In the first Trade module
`newOrder` has two definitions, and the exposed `newOrder` is bound to the
later one — the test-endpoint variant POST `/fapi/v1/order/test`. -/
theorem newOrder_bound_to_last_definition :
    effectiveBinding tradeOps "newOrder" =
      some ⟨"newOrder", "POST", "/fapi/v1/order/test", .signRequest⟩ ∧
    (defsNamed tradeOps "newOrder").length = 2 :=
  ⟨rfl, rfl⟩

/-- C5: some operations reference identifiers never declared as parameters
in their signature: `forceOrders` reads the free identifier `symbol` (so
every call fails with a `ReferenceError` rather than seeing a
caller-supplied value), and `futuresAccountBalanceV3` — whose signature
declares no parameters at all — reads the free identifier `timestamp`. -/
theorem free_identifier_operations :
    (∀ (ts : JsVal) (opts : JsObj),
      forceOrders ts opts = .error (.referenceError "symbol")) ∧
    futuresAccountBalanceV3 = .error (.referenceError "timestamp") :=
  ⟨fun _ _ => rfl, rfl⟩

/-- C3 (amended): operations taking a symbol as a direct parameter put its
uppercased form into the outgoing request (shown for `newOrder`), but
symbols nested inside `batchOrders` elements are forwarded unchanged by
`placeMultipleOrder` — never uppercased. -/
theorem symbol_uppercasing_scope :
    (∀ (s : String) (sd ty ts : JsVal) (opts : JsObj) (req : Request)
        (post : JsObj),
      newOrder (.str s) sd ty ts opts = .ok (req, post) →
      getField req.params "symbol" = .str (jsStrUpper s)) ∧
    (∀ (batch : List JsObj) (ts : JsVal) (opts : JsObj) (req : Request)
        (post : JsObj),
      placeMultipleOrder batch ts opts = .ok (req, post) →
      getField req.params "batchOrders" = .arr (batch.map .obj)) := by
  constructor
  · intro s sd ty ts opts req post h
    unfold newOrder at h
    split at h
    · exact Except.noConfusion h
    · split at h
      · exact Except.noConfusion h
      · exact Except.noConfusion h
      · exact Except.noConfusion h
      · rename_i symbolU sideU typeU hsym hside htype
        injection h with h2
        injection h2 with hr hp
        subst hr
        have hs : symbolU = .str (jsStrUpper s) := by
          have hx : (Except.ok (JsVal.str (jsStrUpper s)) :
              Except JsError JsVal) = .ok symbolU := hsym
          exact (Except.ok.inj hx).symm
        subst hs
        rw [getField_objAssign]
        simp [lastVal]
  · intro batch ts opts req post h
    unfold placeMultipleOrder at h
    split at h
    · exact Except.noConfusion h
    · split at h
      · exact Except.noConfusion h
      · injection h with h2
        injection h2 with hr hp
        subst hr
        rw [getField_objAssign]
        simp [lastVal]

/-- C3 (witness): instantiates the amended theorem at `newOrder` called
with the lowercase symbol `"btcusdt"`; the outgoing request carries its
uppercased form. -/
theorem symbol_uppercasing_scope_witness :
    getField [("symbol", JsVal.str "BTCUSDT"), ("side", JsVal.str "BUY"),
      ("type", JsVal.str "LIMIT"), ("timestamp", JsVal.num 1)] "symbol" =
      .str (jsStrUpper "btcusdt") :=
  symbol_uppercasing_scope.1 "btcusdt" (.str "BUY") (.str "LIMIT") (.num 1)
    []
    ⟨"POST", "/fapi/v1/order", .signRequest,
      [("symbol", .str "BTCUSDT"), ("side", .str "BUY"),
       ("type", .str "LIMIT"), ("timestamp", .num 1)]⟩
    [("symbol", .str "BTCUSDT"), ("side", .str "BUY"),
     ("type", .str "LIMIT"), ("timestamp", .num 1)] rfl

/-- C6: no operation modifies the client configuration: running any of the
embedded operations returns the configuration object (base URL, API key,
API secret, timeout) exactly as it went in — construction is the only
mutation point. -/
theorem client_config_immutable_under_ops (cfg : JsObj) (call : OpCall)
    (out : JsObj × Request × JsObj) (h : runOp cfg call = .ok out) :
    out.1 = cfg ∧ getField out.1 "baseURL" = getField cfg "baseURL" ∧
    getField out.1 "apiKey" = getField cfg "apiKey" ∧
    getField out.1 "apiSecret" = getField cfg "apiSecret" ∧
    getField out.1 "timeout" = getField cfg "timeout" := by
  have h1 : out.1 = cfg := by
    cases call <;>
      · rw [runOp.eq_def] at h
        dsimp only at h
        split at h
        · exact Except.noConfusion h
        · injection h with h2
          rw [← h2]
  exact ⟨h1, by rw [h1], by rw [h1], by rw [h1], by rw [h1]⟩

/-- C6 (witness): instantiates the immutability theorem at a concrete
client configuration and a concrete `exchangeInfo` call. -/
theorem client_config_immutable_under_ops_witness :
    (([("baseURL", JsVal.str "https://fapi.binance.com")],
      (⟨"GET", "/fapi/v1/exchangeInfo", .publicRequest, []⟩ : Request),
      ([] : JsObj)) : JsObj × Request × JsObj).1 =
      [("baseURL", JsVal.str "https://fapi.binance.com")] :=
  (client_config_immutable_under_ops
    [("baseURL", JsVal.str "https://fapi.binance.com")]
    (.exchangeInfo [])
    ([("baseURL", JsVal.str "https://fapi.binance.com")],
      ⟨"GET", "/fapi/v1/exchangeInfo", .publicRequest, []⟩, []) rfl).1

/-- C7: signing is deterministic — the same parameter set with the same
secret yields the identical signature — and order- and value-sensitive: any
two distinct nonempty parameter lists (different in some value or in the
insertion order) with well-formed keys produce different canonical query
strings and hence different signatures. -/
theorem signing_deterministic_and_order_sensitive
    (secret : String) (l1 l2 : List (String × String))
    (h1 : wellFormedKeys l1) (h2 : wellFormedKeys l2)
    (hne1 : l1 ≠ []) (hne2 : l2 ≠ []) :
    signParams secret l1 = signParams secret l1 ∧
    (l1 ≠ l2 →
      canonicalQueryString l1 ≠ canonicalQueryString l2 ∧
      signParams secret l1 ≠ signParams secret l2) := by
  refine ⟨rfl, fun hdiff => ?_⟩
  have hq : canonicalQueryString l1 ≠ canonicalQueryString l2 := by
    intro hqe
    exact hdiff (serializeChars_inj l1 l2 h1 h2 hne1 hne2
      (congrArg String.data hqe))
  exact ⟨hq, fun hs => hq (congrArg HmacSha256.message hs)⟩

/-- C7 (witness): instantiates the signing theorem at two concrete
parameter lists that differ only in insertion order; their signatures
differ. -/
theorem signing_deterministic_and_order_sensitive_witness :
    signParams "testSecret" [("symbol", "BTCUSDT"), ("timestamp", "1")] ≠
      signParams "testSecret" [("timestamp", "1"), ("symbol", "BTCUSDT")] :=
  ((signing_deterministic_and_order_sensitive "testSecret"
      [("symbol", "BTCUSDT"), ("timestamp", "1")]
      [("timestamp", "1"), ("symbol", "BTCUSDT")]
      (by decide) (by decide) (by decide) (by decide)).2 (by decide)).2

/-- C8: when the options object given to the `Futures` constructor has no
`baseURL` (or a falsy one), both the configuration handed to `APIBase` and
the mutated options carry the default `https://fapi.binance.com`; a truthy
`baseURL` is used unchanged. -/
theorem futures_constructor_baseURL_default (apiKey apiSecret : JsVal)
    (options : JsObj) (hnd : (options.map Prod.fst).Nodup) :
    getField (futuresConstructor apiKey apiSecret options).1 "baseURL" =
      (if jsTruthy (getField options "baseURL")
       then getField options "baseURL"
       else .str "https://fapi.binance.com") ∧
    getField (futuresConstructor apiKey apiSecret options).2 "baseURL" =
      (if jsTruthy (getField options "baseURL")
       then getField options "baseURL"
       else .str "https://fapi.binance.com") := by
  unfold futuresConstructor
  dsimp only
  constructor
  · rw [getField_objAssign, lastVal_setKey_self options "baseURL" _ hnd]
  · exact getField_setKey_self options "baseURL" _

/-- C8 (witness): instantiates the constructor theorem at an options object
without a `baseURL`: the resolved base URL is the default. -/
theorem futures_constructor_baseURL_default_witness :
    (([("timeout", JsVal.num 5000)] : JsObj).map Prod.fst).Nodup ∧
    getField (futuresConstructor (.str "key") (.str "secret")
        [("timeout", JsVal.num 5000)]).1 "baseURL" =
      (if jsTruthy (getField [("timeout", JsVal.num 5000)] "baseURL")
       then getField [("timeout", JsVal.num 5000)] "baseURL"
       else .str "https://fapi.binance.com") :=
  ⟨by decide, (futures_constructor_baseURL_default (.str "key")
    (.str "secret") [("timeout", JsVal.num 5000)] (by decide)).1⟩

/-- C9: operations mutate the caller's options object in place: after a
successful `newOrder` call, the object the caller passed is the very
parameter object of the dispatched request and now contains the uppercased
symbol and the timestamp; likewise the `Futures` constructor writes
`baseURL` into the caller's options object. -/
theorem operations_mutate_caller_options
    (s : String) (sd ty ts : JsVal) (opts : JsObj) (req : Request)
    (post : JsObj)
    (h : newOrder (.str s) sd ty ts opts = .ok (req, post)) :
    post = req.params ∧
    getField post "symbol" = .str (jsStrUpper s) ∧
    getField post "timestamp" = ts ∧
    ∀ (apiKey apiSecret : JsVal) (o2 : JsObj),
      hasKey (futuresConstructor apiKey apiSecret o2).2 "baseURL" = true := by
  unfold newOrder at h
  split at h
  · exact Except.noConfusion h
  · split at h
    · exact Except.noConfusion h
    · exact Except.noConfusion h
    · exact Except.noConfusion h
    · rename_i symbolU sideU typeU hsym hside htype
      injection h with h2
      injection h2 with hr hp
      subst hr
      subst hp
      have hs : symbolU = .str (jsStrUpper s) := by
        have hx : (Except.ok (JsVal.str (jsStrUpper s)) :
            Except JsError JsVal) = .ok symbolU := hsym
        exact (Except.ok.inj hx).symm
      subst hs
      refine ⟨rfl, ?_, ?_, ?_⟩
      · rw [getField_objAssign]
        simp [lastVal]
      · rw [getField_objAssign]
        simp [lastVal]
      · intro apiKey apiSecret o2
        unfold futuresConstructor
        dsimp only
        exact hasKey_setKey_self o2 "baseURL" _

/-- C9 (witness): instantiates the mutation theorem at a concrete
`newOrder` call: the caller's (initially empty) options object afterwards
contains the uppercased symbol and the timestamp. -/
theorem operations_mutate_caller_options_witness :
    getField [("symbol", JsVal.str "BTCUSDT"), ("side", JsVal.str "BUY"),
      ("type", JsVal.str "LIMIT"), ("timestamp", JsVal.num 1)] "symbol" =
      JsVal.str (jsStrUpper "btcusdt") ∧
    getField [("symbol", JsVal.str "BTCUSDT"), ("side", JsVal.str "BUY"),
      ("type", JsVal.str "LIMIT"), ("timestamp", JsVal.num 1)]
      "timestamp" = JsVal.num 1 := by
  have hm := operations_mutate_caller_options "btcusdt" (.str "BUY")
    (.str "LIMIT") (.num 1) []
    ⟨"POST", "/fapi/v1/order", .signRequest,
      [("symbol", .str "BTCUSDT"), ("side", .str "BUY"),
       ("type", .str "LIMIT"), ("timestamp", .num 1)]⟩
    [("symbol", .str "BTCUSDT"), ("side", .str "BUY"),
     ("type", .str "LIMIT"), ("timestamp", .num 1)] rfl
  exact ⟨hm.2.1, hm.2.2.1⟩

/-- C10: for every `placeMultipleOrder` call in which some batch element
lacks `symbol`, `side`, `type` or `quantity` (quantity is unconditionally
required, whatever the order type), the call fails with a
`MissingParameterError` naming only per-element fields — so the per-element
validation runs before the timestamp validation (the named parameters never
include `timestamp`) and before any request is built. -/
theorem placeMultipleOrder_validates_elements_first
    (batch : List JsObj) (ts : JsVal) (opts : JsObj)
    (h : ∃ el ∈ batch, batchElemIncomplete el = true) :
    ∃ ns, placeMultipleOrder batch ts opts =
        .error (.missingParameterError ns) ∧
      ns ≠ [] ∧ ∀ n ∈ ns, n ∈ ["symbol", "side", "type", "quantity"] := by
  obtain ⟨ns, hns, hne, hsub⟩ := validateBatchElems_error batch h
  refine ⟨ns, ?_, hne, hsub⟩
  unfold placeMultipleOrder
  rw [hns]

/-- A `STOP_MARKET` batch element without a quantity — an order type whose
documented contract makes quantity optional. -/
def stopMarketOrderExample : JsObj :=
  [("symbol", .str "BTCUSDT"), ("side", .str "BUY"),
   ("type", .str "STOP_MARKET"), ("stopPrice", .num 70000)]

/-- C10 (witness): instantiates the theorem at a batch holding one
`STOP_MARKET` element without `quantity` and with the call's `timestamp`
missing as well: the failure names per-element fields only. -/
theorem placeMultipleOrder_validates_elements_first_witness :
    ∃ ns, placeMultipleOrder [stopMarketOrderExample] .undef [] =
        .error (.missingParameterError ns) ∧
      ns ≠ [] ∧ ∀ n ∈ ns, n ∈ ["symbol", "side", "type", "quantity"] :=
  placeMultipleOrder_validates_elements_first [stopMarketOrderExample]
    .undef []
    ⟨stopMarketOrderExample, List.mem_singleton.mpr rfl, by decide⟩
